import Mathlib

/-!
Verification of the putiofs FUSE adapter (fs.go) against its specification.

The Go source is shallowly embedded: every definition below mirrors one Go
function or data structure from fs.go (the authority).  Remote-store effects
are modelled by an environment `FS` of response functions, and each operation
additionally returns the list of remote calls it issued, so that frame
properties ("no network call") are provable.
-/

namespace Putiofs

/-- A byte, as served over HTTP.  We only need equality, so `Nat` suffices. -/
abbrev Byte := Nat

/-- putio.File: the remote record `{ID, Name, Size, ContentType, ...}` used by
fs.go.  Only the fields fs.go reads are modelled.  `IsDir()` in go-putio is
`ContentType == "application/x-directory"`. -/
structure Entry where
  id : Int
  name : String
  size : Int
  contentType : String
  deriving DecidableEq, Repr

def Entry.isDir (e : Entry) : Bool := e.contentType == "application/x-directory"

/-- The fuse errors fs.go returns: EIO, ENOENT, EEXIST, ENOTSUP, EPERM. -/
inductive FuseError where
  | eio
  | enoent
  | eexist
  | enotsup
  | eperm
  deriving DecidableEq, Repr

/-- One remote-store (network) call, as issued by the FileSystem helpers in
fs.go.  `download` records the offset that was placed in the (unsent) Range
header of the request. -/
inductive Call where
  | list (id : Int)
  | createFolder (name : String) (parent : Int)
  | delete (id : Int)
  | rename (id : Int) (newname : String)
  | move (parent : Int) (id : Int)
  | download (id : Int) (offset : Int)
  | upload (name : String) (parent : Int)
  | transfersList
  deriving DecidableEq, Repr

def Call.isUpload : Call → Bool
  | .upload _ _ => true
  | _ => false

def Call.isDelete : Call → Bool
  | .delete _ => true
  | _ => false

/-- putio.Transfer, restricted to the fields printTransfersChart reads. -/
structure Transfer where
  name : String
  status : String
  downloaded : Int
  size : Int
  downloadSpeed : Int
  uploadSpeed : Int
  deriving DecidableEq, Repr

/-- The remote store and the mount-scoped cache, as an environment of response
functions: `listing` is Files.List, `content` is the byte stream the HTTP GET
of a file URL serves (whole object, from byte 0), `createFolderRes`,
`renameRes`, `moveRes`, `deleteRes` are the corresponding Files calls,
`transfers` is Transfers.List, and `account` is the JSON rendering of the
account info cached at mount time (its exact text is irrelevant here). -/
structure FS where
  listing : Int → Except Unit (List Entry)
  content : Int → Except Unit (List Byte)
  createFolderRes : String → Int → Except Unit Entry
  deleteRes : Int → Except Unit Unit
  renameRes : Int → String → Except Unit Unit
  moveRes : Int → Int → Except Unit Unit
  transfers : Except Unit (List Transfer)
  account : String

/-! ## Junk-name filter (fs.go: junkFilePrefixes, isJunkFile) -/

/-- strings.HasPrefix, on the character sequence of the string. -/
def strStartsWith (s pre : String) : Bool := pre.toList.isPrefixOf s.toList

def junkFilePrefixes : List String :=
  ["._", ".DS_Store", ".Spotlight-", ".ql_", ".hidden", ".metadata_never_index",
   ".nomedia", ".git", ".hg", ".bzr", ".svn", "_darcs", ".envrc", ".Trash-"]

/-- filepath.Split: the part of the path after the final separator. -/
def baseName (abspath : String) : String :=
  String.mk ((abspath.toList.reverse.takeWhile (fun c => c ≠ '/')).reverse)

/-- isJunkFile reports whether the path's final component starts with one of
the well-known junk prefixes. -/
def isJunkFile (abspath : String) : Bool :=
  junkFilePrefixes.any (fun v => strStartsWith (baseName abspath) v)

/-! ## Transfers chart (fs.go: humanizeBytes, printTransfersChart) -/

/-- Go uint64(x) conversion of an int64 value. -/
def uint64 (x : Int) : Nat := (x % (2 : Int) ^ 64).toNat

def sizeSuffixes : List String := ["B", "kB", "MB", "GB", "TB"]

/-- humanizeBytes from fs.go.  `e := math.Floor(math.Log(s) / math.Log(1000))`
is modelled exactly as `Nat.log 1000 s`; the five-element suffix array access
`sizes[int(e)]` is modelled by `sizeSuffixes[e]?`, where `none` stands for the
Go runtime panic (index out of range).  The in-range rendering tracks the
source arithmetic over the integers: `val10` is `floor(s/1000^e*10 + 0.5)`. -/
def humanizeBytes (s : Nat) : Option String :=
  if s < 10 then some (toString s ++ "B")
  else
    let e := Nat.log 1000 s
    (sizeSuffixes[e]?).map (fun suffix =>
      let p := 1000 ^ e
      let val10 := (20 * s + p) / (2 * p)
      if val10 < 100 then toString (val10 / 10) ++ "." ++ toString (val10 % 10) ++ suffix
      else toString ((val10 + 5) / 10) ++ suffix)

/-- One row of the transfers chart.  Completed transfers print fixed cells;
any other status humanizes Downloaded, Size, DownloadSpeed and UploadSpeed
(after Go uint64 conversion).  `none` propagates a humanizeBytes panic.
Tabwriter column padding is abstracted to plain tab separation. -/
def transferRow (t : Transfer) : Option String :=
  if t.status == "COMPLETED" then
    some (t.name ++ "\t✓\t \t \t\n")
  else do
    let dl ← humanizeBytes (uint64 t.downloaded)
    let sz ← humanizeBytes (uint64 t.size)
    let ds ← humanizeBytes (uint64 t.downloadSpeed)
    let us ← humanizeBytes (uint64 t.uploadSpeed)
    some (t.name ++ "\t" ++ dl ++ "/" ++ sz ++ "\t" ++ ds ++ "/s\t" ++ us ++ "/s\t\n")

/-- printTransfersChart from fs.go; `none` models a panic while rendering. -/
def printTransfersChart (ts : List Transfer) : Option String :=
  if ts.isEmpty then some "No transfer found\n"
  else do
    let rows ← ts.mapM transferRow
    some ("Name\tStatus\t▼\t▲\t\n" ++ "----\t------\t-\t-\t\n" ++ String.join rows)

/-! ## Directory node (fs.go: Dir) -/

/-- The node a lookup can produce: a directory, a regular file, or one of the
synthesized read-only pseudo-files (staticFileNode). -/
inductive Node where
  | dir (e : Entry)
  | file (e : Entry)
  | staticFile (content : String)
  deriving DecidableEq, Repr

/-- Outcome of Dir.Lookup.  `fatal` models logger.Fatalf (process exit, no
return); `panicked` models a runtime panic while rendering a pseudo-file. -/
inductive LookupOut where
  | node (n : Node)
  | err (e : FuseError)
  | fatal
  | panicked
  deriving DecidableEq, Repr

/-- Dir.Lookup from fs.go, paired with the remote calls it issues, in order:
junk filter first (no call), then the reserved names ".quit" (Fatalf),
".account" (serves the cached account, no call) and ".transfers" (one
Transfers.List call), then one Files.List call and a scan for the first
child with the requested name. -/
def dirLookup (fs : FS) (d : Entry) (name : String) : LookupOut × List Call :=
  if isJunkFile name then (.err .enoent, [])
  else if name = ".quit" then (.fatal, [])
  else if name = ".account" then (.node (.staticFile fs.account), [])
  else if name = ".transfers" then
    match fs.transfers with
    | .error _ => (.err .eio, [.transfersList])
    | .ok ts =>
      match printTransfersChart ts with
      | none => (.panicked, [.transfersList])
      | some s => (.node (.staticFile s), [.transfersList])
  else
    match fs.listing d.id with
    | .error _ => (.err .eio, [.list d.id])
    | .ok files =>
      match files.find? (fun f => f.name == name) with
      | some f =>
        if f.isDir then (.node (.dir f), [.list d.id])
        else (.node (.file f), [.list d.id])
      | none => (.err .enoent, [.list d.id])

/-- Dir.Mkdir from fs.go: list the children; if the name is already present
return EEXIST (before any CreateFolder call); otherwise create the folder. -/
def dirMkdir (fs : FS) (d : Entry) (name : String) : Except FuseError Entry × List Call :=
  match fs.listing d.id with
  | .error _ => (.error .eio, [.list d.id])
  | .ok files =>
    if files.any (fun f => f.name == name) then (.error .eexist, [.list d.id])
    else
      match fs.createFolderRes name d.id with
      | .error _ => (.error .eio, [.list d.id, .createFolder name d.id])
      | .ok dir => (.ok dir, [.list d.id, .createFolder name d.id])

/-- The Go loop locating the id of `oldname`: every match overwrites `fileid`,
so the last match wins; `-1` signals absence. -/
def findFileID (files : List Entry) (oldname : String) : Int :=
  files.foldl (fun acc f => if f.name == oldname then f.id else acc) (-1)

/-- Dir.rename (lowercase) from fs.go: no-op when the names are equal,
otherwise one remote Rename call whose raw error is returned. -/
def dirRenameLocal (fs : FS) (fileid : Int) (oldname newname : String) :
    Except Unit Unit × List Call :=
  if oldname = newname then (.ok (), [])
  else (fs.renameRes fileid newname, [.rename fileid newname])

/-- Dir.move (lowercase) from fs.go: one remote Move call (failure mapped to
an error), then, only if the name changed, a remote Rename call. -/
def dirMove (fs : FS) (fileid parent : Int) (oldname newname : String) :
    Except Unit Unit × List Call :=
  match fs.moveRes parent fileid with
  | .error _ => (.error (), [.move parent fileid])
  | .ok _ =>
    if oldname ≠ newname then
      (fs.renameRes fileid newname, [.move parent fileid, .rename fileid newname])
    else (.ok (), [.move parent fileid])

/-- Dir.Rename from fs.go: list the source directory, take the last child
matching `oldname` (ENOENT if none); when the destination is the same
directory perform the name-only rename (EIO on failure); then — with no
early return in the source — unconditionally perform the move into the
destination directory, mapping any failure to EIO. -/
def dirRename (fs : FS) (d newdir : Entry) (oldname newname : String) :
    Except FuseError Unit × List Call :=
  match fs.listing d.id with
  | .error _ => (.error .eio, [.list d.id])
  | .ok files =>
    let fileid := findFileID files oldname
    if fileid < 0 then (.error .enoent, [.list d.id])
    else if newdir.id = d.id then
      match dirRenameLocal fs fileid oldname newname with
      | (.error _, t) => (.error .eio, .list d.id :: t)
      | (.ok _, t) =>
        match dirMove fs fileid newdir.id oldname newname with
        | (.error _, t2) => (.error .eio, .list d.id :: (t ++ t2))
        | (.ok _, t2) => (.ok (), .list d.id :: (t ++ t2))
    else
      match dirMove fs fileid newdir.id oldname newname with
      | (.error _, t2) => (.error .eio, .list d.id :: t2)
      | (.ok _, t2) => (.ok (), .list d.id :: t2)

/-! ## File node and read/write handles (fs.go: File) -/

/-- The open HTTP response body: the full object bytes and the current read
position within them. -/
structure ByteStream where
  data : List Byte
  pos : Nat
  deriving DecidableEq, Repr

/-- The File node/handle: its metadata Entry, the read offset `f.offset`, and
the open body stream, if any. -/
structure Handle where
  entry : Entry
  offset : Int
  body : Option ByteStream
  deriving DecidableEq, Repr

/-- A freshly opened handle: File.Open returns the node itself, whose offset
is 0 and whose body is nil. -/
def freshHandle (e : Entry) : Handle := ⟨e, 0, none⟩

/-- FileSystem.download from fs.go.  The source builds a GET request carrying
`Range: bytes=offset-`, but then issues `f.hc.Get(u)` — the plain request,
without that header — so the stream served always begins at byte 0 of the
object, whatever `offset` was.  The offset is still recorded in the call
trace, as the anchor the code intended to request. -/
def download (fs : FS) (id : Int) (offset : Int) : Except Unit ByteStream × List Call :=
  match fs.content id with
  | .error _ => (.error (), [.download id offset])
  | .ok bs => (.ok ⟨bs, 0⟩, [.download id offset])

/-- io.ReadFull into a buffer of `size` bytes: reads `min size remaining`
bytes from the stream and advances its position; the EOF and unexpected-EOF
errors are mapped to success by the caller, so no error case remains. -/
def readFull (st : ByteStream) (size : Nat) : List Byte × ByteStream :=
  let n := min size (st.data.length - st.pos)
  ((st.data.drop st.pos).take n, ⟨st.data, st.pos + n⟩)

/-- Result of File.Read: the bytes (or error), the updated handle, and the
remote calls issued. -/
structure ReadOut where
  res : Except FuseError (List Byte)
  handle : Handle
  calls : List Call
  deriving Repr

/-- The tail of File.Read shared by both branches: read up to `reqSize` bytes
from the stream and advance `f.offset` by the bytes actually consumed. -/
def consume (e : Entry) (off : Int) (st : ByteStream) (reqSize : Nat) (t : List Call) : ReadOut :=
  let r := readFull st reqSize
  ⟨.ok r.1, ⟨e, off + r.1.length, some r.2⟩, t⟩

/-- File.Read from fs.go: a request at or past the recorded file size returns
empty data immediately (no state change, no call); a nil body or an offset
mismatch (seek) closes any open body and downloads anew, resetting
`f.offset` to the requested offset; then bytes are consumed from the
stream. -/
def fileRead (fs : FS) (h : Handle) (reqOffset : Int) (reqSize : Nat) : ReadOut :=
  if h.entry.size ≤ reqOffset then ⟨.ok [], h, []⟩
  else if h.body = none ∨ h.offset ≠ reqOffset then
    match download fs h.entry.id reqOffset with
    | (.error _, t) => ⟨.error .eio, h, t⟩
    | (.ok st, t) => consume h.entry reqOffset st reqSize t
  else
    match h.body with
    | some st => consume h.entry h.offset st reqSize []
    | none => ⟨.error .eio, h, []⟩  -- unreachable: the renew guard covers body = none

/-- File.Write from fs.go: it rejects every write with ENOTSUP, touching
neither the handle nor the remote store. -/
def fileWrite (h : Handle) (_reqOffset : Int) (_data : List Byte) :
    Except FuseError Unit × Handle × List Call :=
  (.error .enotsup, h, [])

/-- File.Fsync from fs.go: it logs and returns nil — success, not ENOTSUP. -/
def fileFsync (h : Handle) : Except FuseError Unit × Handle × List Call :=
  (.ok (), h, [])

/-- File implements no Flush method (no fs.HandleFlusher assertion exists in
fs.go), so a kernel Flush on the handle succeeds as a no-op without reaching
the adapter. -/
def fileFlush (h : Handle) : Except FuseError Unit × Handle × List Call :=
  (.ok (), h, [])

/-- File.Release from fs.go: reset the offset to 0 and close the body if one
is open; no remote call. -/
def fileRelease (h : Handle) : Handle × List Call :=
  (⟨h.entry, 0, none⟩, [])

/-- Sequential reads on one handle: issue a Read of each size in turn, each at
the offset one past the previous request. Concatenates the returned bytes; a
failing read ends the sequence. -/
def readSeq (fs : FS) (h : Handle) (reqOffset : Int) : List Nat → List Byte × Handle
  | [] => ([], h)
  | s :: rest =>
    let out := fileRead fs h reqOffset s
    match out.res with
    | .error _ => ([], out.handle)
    | .ok bytes =>
      let r := readSeq fs out.handle (reqOffset + s) rest
      (bytes ++ r.1, r.2)

/-- The write-then-flush-then-release sequence of claim C1, on a fresh handle:
Write(0, "AAAA"); Write(2, "BB"); Flush; Release.  Returns the three results,
the final handle, and every remote call issued over the whole sequence. -/
def writeFlushSequence (_fs : FS) (e : Entry) :
    (Except FuseError Unit × Except FuseError Unit × Except FuseError Unit) × Handle × List Call :=
  let h0 := freshHandle e
  let w1 := fileWrite h0 0 [65, 65, 65, 65]
  let w2 := fileWrite w1.2.1 2 [66, 66]
  let fl := fileFlush w2.2.1
  let re := fileRelease fl.2.1
  ((w1.1, w2.1, fl.1), re.1, w1.2.2 ++ w2.2.2 ++ fl.2.2 ++ re.2)

/-! ## Concrete fixtures used by the closed evaluations -/

/-- A remote store with no children, empty file contents, and succeeding
mutation calls. -/
def emptyFS : FS :=
  { listing := fun _ => .ok []
    content := fun _ => .ok []
    createFolderRes := fun _ _ => .error ()
    deleteRes := fun _ => .ok ()
    renameRes := fun _ _ => .ok ()
    moveRes := fun _ _ => .ok ()
    transfers := .ok []
    account := "" }

/-- A zero-byte regular file, as just created by Dir.Create. -/
def entryEmpty : Entry := ⟨7, "report.txt", 0, "text/plain"⟩

/-- A six-byte regular file with id 5. -/
def entrySix : Entry := ⟨5, "f.bin", 6, "video/mp4"⟩

def bsSix : List Byte := [10, 11, 12, 13, 14, 15]

/-- Store serving `bsSix` as the content of file 5. -/
def fsSix : FS := { emptyFS with content := fun i => if i = 5 then .ok bsSix else .ok [] }

/-- A read handle on `entrySix` whose open stream sits at position 4. -/
def handleSeek : Handle := ⟨entrySix, 4, some ⟨bsSix, 4⟩⟩

/-- A directory with id 1 containing one file "a" with id 2. -/
def dirOne : Entry := ⟨1, "d", 0, "application/x-directory"⟩

def fsRenameFix : FS :=
  { emptyFS with listing := fun i => if i = 1 then .ok [⟨2, "a", 0, "video/mp4"⟩] else .ok [] }

/-- A directory with id 1 containing one subdirectory "x". -/
def fsMkFix : FS :=
  { emptyFS with
    listing := fun i => if i = 1 then .ok [⟨2, "x", 0, "application/x-directory"⟩] else .ok [] }

/-! ## Claims -/

/-- C4: for every file of size N and every read request with offset O ≥ N,
Read returns zero bytes and no error, and the handle state (offset and open
stream) is unchanged; no remote call is made. -/
theorem read_past_eof (fs : FS) (h : Handle) (o : Int) (s : Nat)
    (ho : h.entry.size ≤ o) : fileRead fs h o s = ⟨.ok [], h, []⟩ := by
  unfold fileRead
  rw [if_pos ho]

/-- Witness for C4 at a concrete input: file of size 6, read at offset 8. -/
theorem read_past_eof_witness :
    (freshHandle entrySix).entry.size ≤ 8 ∧
      fileRead fsSix (freshHandle entrySix) 8 4 = ⟨.ok [], freshHandle entrySix, []⟩ :=
  ⟨by decide, read_past_eof fsSix (freshHandle entrySix) 8 4 (by decide)⟩

/-- C5: for every directory and every name already present among the
directory's current remote children, Mkdir returns AlreadyExists (EEXIST) and
issues no CreateFolder call to the remote store. -/
theorem mkdir_existing_name (fs : FS) (d : Entry) (name : String) (files : List Entry)
    (hl : fs.listing d.id = .ok files) (hmem : ∃ f ∈ files, f.name = name) :
    dirMkdir fs d name = (.error .eexist, [.list d.id]) ∧
      ∀ n p, Call.createFolder n p ∉ (dirMkdir fs d name).2 := by
  have hany : files.any (fun f => f.name == name) = true := by
    rw [List.any_eq_true]
    obtain ⟨f, hf, he⟩ := hmem
    exact ⟨f, hf, by simp [he]⟩
  have heq : dirMkdir fs d name = (.error .eexist, [.list d.id]) := by
    unfold dirMkdir
    rw [hl]
    simp only [hany, if_true]
  refine ⟨heq, fun n p hn => ?_⟩
  rw [heq] at hn
  simp at hn

/-- Witness for C5 at a concrete input: Mkdir "x" in a directory already
containing a child named "x". -/
theorem mkdir_existing_name_witness :
    fsMkFix.listing dirOne.id = .ok [⟨2, "x", 0, "application/x-directory"⟩] ∧
      (∃ f ∈ [(⟨2, "x", 0, "application/x-directory"⟩ : Entry)], f.name = "x") ∧
      (dirMkdir fsMkFix dirOne "x" = (.error .eexist, [.list dirOne.id]) ∧
        ∀ n p, Call.createFolder n p ∉ (dirMkdir fsMkFix dirOne "x").2) :=
  ⟨rfl, by decide,
    mkdir_existing_name fsMkFix dirOne "x" [⟨2, "x", 0, "application/x-directory"⟩] rfl (by decide)⟩

/-- C6: for every name whose final path component begins with one of the fixed
junk-name prefixes, Lookup returns NotFound (ENOENT) immediately and performs
zero remote-store calls. -/
theorem lookup_junk_name (fs : FS) (d : Entry) (name : String)
    (hj : ∃ p ∈ junkFilePrefixes, strStartsWith (baseName name) p = true) :
    dirLookup fs d name = (.err .enoent, []) := by
  have hjunk : isJunkFile name = true := by
    rw [isJunkFile, List.any_eq_true]
    obtain ⟨p, hp, hs⟩ := hj
    exact ⟨p, hp, hs⟩
  unfold dirLookup
  rw [if_pos hjunk]

/-- Witness for C6 at a concrete input: Lookup of "._foo". -/
theorem lookup_junk_name_witness :
    (∃ p ∈ junkFilePrefixes, strStartsWith (baseName "._foo") p = true) ∧
      dirLookup fsSix dirOne "._foo" = (.err .enoent, []) :=
  ⟨by decide, lookup_junk_name fsSix dirOne "._foo" (by decide)⟩

/-- C9: for every directory, Lookup of the reserved name ".quit" reaches
logger.Fatalf — modelled as the `fatal` outcome, terminating the process —
with zero remote-store calls, before any node or error could be returned. -/
theorem lookup_quit_fatal (fs : FS) (d : Entry) :
    dirLookup fs d ".quit" = (.fatal, []) := rfl

/-- Counterexample for C7: Fsync on a file handle returns success (nil), not
NotSupported. -/
theorem fsync_counterexample :
    (fileFsync (freshHandle entrySix)).1 = .ok () ∧
      (fileFsync (freshHandle entrySix)).1 ≠ Except.error FuseError.enotsup :=
  ⟨rfl, by simp [fileFsync]⟩

/-- C7 (amended): for every file handle, Fsync succeeds as a no-op — it
returns nil rather than signalling NotSupported, changes no state, and makes
no remote call. -/
theorem fsync_amended (h : Handle) : fileFsync h = (.ok (), h, []) := rfl

/-- Counterexample for C1: on a freshly created empty file, the sequence
Write(0,"AAAA"); Write(2,"BB"); Flush; Release issues zero remote calls — in
particular zero Uploads and zero Deletes, not one of each — the first Write
already fails with ENOTSUP, and reopening and reading the file yields its old
content [] rather than "AABB" ([65,65,66,66]). -/
theorem write_sequence_counterexample :
    (writeFlushSequence emptyFS entryEmpty).2.2 = [] ∧
      ((writeFlushSequence emptyFS entryEmpty).2.2.countP Call.isUpload) = 0 ∧
      ((writeFlushSequence emptyFS entryEmpty).2.2.countP Call.isDelete) = 0 ∧
      (writeFlushSequence emptyFS entryEmpty).1.1 = .error .enotsup ∧
      (fileRead emptyFS (freshHandle entryEmpty) 0 4).res = .ok [] ∧
      ([] : List Byte) ≠ [65, 65, 66, 66] :=
  ⟨rfl, rfl, rfl, rfl, rfl, by decide⟩

/-- Reading a whole file of known content from a fresh handle returns exactly
that content: the first read anchors the stream at byte 0, where the
(range-less) download actually starts. -/
theorem fullRead_ok (fs : FS) (e : Entry) (bs : List Byte)
    (hc : fs.content e.id = .ok bs) (hsz : e.size = (bs.length : Int)) :
    (fileRead fs (freshHandle e) 0 bs.length).res = .ok bs := by
  by_cases hb : bs.length = 0
  · have hle : e.size ≤ (0 : Int) := by rw [hsz, hb]; norm_num
    unfold fileRead
    simp only [freshHandle]
    rw [if_pos hle]
    simp [List.eq_nil_of_length_eq_zero hb]
  · have hneg : ¬ e.size ≤ (0 : Int) := by
      rw [hsz]
      exact_mod_cast Nat.not_le.mpr (Nat.pos_of_ne_zero hb)
    unfold fileRead
    simp only [freshHandle]
    rw [if_neg hneg, if_pos (Or.inl trivial)]
    unfold download
    rw [hc]
    simp [consume, readFull]

/-- C1 (amended): for every open handle on a file, the sequence
Write(offset=0,"AAAA"); Write(offset=2,"BB"); Flush; Release stages nothing:
both writes fail with ENOTSUP, Flush is a no-op success, the whole sequence
issues zero remote calls (so zero Uploads and zero Deletes, not one of each),
and reopening and reading the file yields its original content unchanged. -/
theorem write_sequence_amended (fs : FS) (e : Entry) (bs : List Byte)
    (hc : fs.content e.id = .ok bs) (hsz : e.size = (bs.length : Int)) :
    (writeFlushSequence fs e).1.1 = .error .enotsup ∧
      (writeFlushSequence fs e).1.2.1 = .error .enotsup ∧
      (writeFlushSequence fs e).1.2.2 = .ok () ∧
      (writeFlushSequence fs e).2.2 = [] ∧
      (fileRead fs (freshHandle e) 0 bs.length).res = .ok bs :=
  ⟨rfl, rfl, rfl, rfl, fullRead_ok fs e bs hc hsz⟩

/-- Witness for the amended C1 at a concrete input: the empty file on the
empty store. -/
theorem write_sequence_amended_witness :
    emptyFS.content entryEmpty.id = .ok [] ∧ entryEmpty.size = (([] : List Byte).length : Int) ∧
      ((writeFlushSequence emptyFS entryEmpty).1.1 = .error .enotsup ∧
        (writeFlushSequence emptyFS entryEmpty).1.2.1 = .error .enotsup ∧
        (writeFlushSequence emptyFS entryEmpty).1.2.2 = .ok () ∧
        (writeFlushSequence emptyFS entryEmpty).2.2 = [] ∧
        (fileRead emptyFS (freshHandle entryEmpty) 0 ([] : List Byte).length).res = .ok []) :=
  ⟨rfl, by decide, write_sequence_amended emptyFS entryEmpty [] rfl (by decide)⟩

/-- One in-range read in a good state (stream position = handle offset = p, or
a fresh handle at p = 0) returns the s bytes starting at p and moves both the
offset and the stream position to p + s. -/
theorem fileRead_good_step (fs : FS) (e : Entry) (bs : List Byte)
    (hc : fs.content e.id = .ok bs) (hsz : e.size = (bs.length : Int))
    (p s : Nat) (h : Handle)
    (hgood : h = ⟨e, (p : Int), some ⟨bs, p⟩⟩ ∨ (p = 0 ∧ h = freshHandle e))
    (hps : p + s ≤ bs.length) (hpl : p < bs.length) :
    (fileRead fs h (p : Int) s).res = .ok ((bs.drop p).take s) ∧
      (fileRead fs h (p : Int) s).handle = ⟨e, ((p + s : Nat) : Int), some ⟨bs, p + s⟩⟩ := by
  have hneg : ¬ e.size ≤ (p : Int) := by
    rw [hsz]; exact_mod_cast Nat.not_le.mpr hpl
  have hmin : min s (bs.length - p) = s := Nat.min_eq_left (by omega)
  rcases hgood with rfl | ⟨rfl, rfl⟩
  · unfold fileRead
    dsimp only
    rw [if_neg hneg, if_neg (by simp)]
    unfold consume readFull
    dsimp only
    refine ⟨by rw [hmin], ?_⟩
    simp [hmin, List.length_take, List.length_drop]
  · unfold fileRead
    dsimp only [freshHandle]
    rw [if_neg hneg, if_pos (Or.inl rfl)]
    unfold download
    rw [hc]
    dsimp only
    unfold consume readFull
    dsimp only
    refine ⟨by rw [hmin], ?_⟩
    simp [hmin, List.length_take, List.length_drop]
    omega

/-- Invariant induction for sequential reads: starting in a good state at
position p, issuing reads of the given sizes at contiguous increasing offsets
yields exactly the bytes of the file from p, as many as the sizes request. -/
theorem readSeq_good (fs : FS) (e : Entry) (bs : List Byte)
    (hc : fs.content e.id = .ok bs) (hsz : e.size = (bs.length : Int)) :
    ∀ (sizes : List Nat) (p : Nat) (h : Handle),
      (h = ⟨e, (p : Int), some ⟨bs, p⟩⟩ ∨ (p = 0 ∧ h = freshHandle e)) →
      p + sizes.sum ≤ bs.length →
      (readSeq fs h (p : Int) sizes).1 = (bs.drop p).take sizes.sum := by
  intro sizes
  induction sizes with
  | nil =>
    intro p h _ _
    simp [readSeq]
  | cons s rest ih =>
    intro p h hgood hb
    rw [List.sum_cons] at hb
    by_cases hpl : p < bs.length
    · have hps : p + s ≤ bs.length := by omega
      obtain ⟨hres, hh⟩ := fileRead_good_step fs e bs hc hsz p s h hgood hps hpl
      simp only [readSeq]
      rw [hres]
      dsimp only
      rw [hh]
      have hofs : ((p : Int) + (s : Nat)) = (((p + s : Nat) : Int)) := by push_cast; ring
      rw [hofs]
      rw [ih (p + s) ⟨e, ((p + s : Nat) : Int), some ⟨bs, p + s⟩⟩ (Or.inl rfl) (by omega)]
      rw [List.sum_cons, List.take_add]
      congr 1
      rw [List.drop_drop, Nat.add_comm p s]
    · have hent : h.entry = e := by
        rcases hgood with rfl | ⟨_, rfl⟩ <;> rfl
      have hs0 : s = 0 := by omega
      have hr0 : rest.sum = 0 := by omega
      have hle : h.entry.size ≤ (p : Int) := by
        rw [hent, hsz]
        exact_mod_cast Nat.le_of_not_lt hpl
      have hER : fileRead fs h (p : Int) s = ⟨.ok [], h, []⟩ := by
        unfold fileRead
        rw [if_pos hle]
      simp only [readSeq]
      rw [hER]
      dsimp only
      subst hs0
      have hcast : ((p : Int) + ((0 : Nat) : Int)) = ((p : Nat) : Int) := by push_cast; ring
      rw [hcast, ih p h hgood (by omega)]
      simp [hr0]

/-- C8: for every file of size N, concatenating the results of sequential Read
calls over contiguous, increasing offsets covering [0, N) on one handle yields
exactly the file bytes — the same bytes a single full-range read returns. -/
theorem sequential_reads_cover (fs : FS) (e : Entry) (bs : List Byte) (sizes : List Nat)
    (hc : fs.content e.id = .ok bs) (hsz : e.size = (bs.length : Int))
    (hsum : sizes.sum = bs.length) :
    (readSeq fs (freshHandle e) 0 sizes).1 = bs ∧
      (fileRead fs (freshHandle e) 0 bs.length).res =
        .ok ((readSeq fs (freshHandle e) 0 sizes).1) := by
  have h1 : (readSeq fs (freshHandle e) 0 sizes).1 = bs := by
    have hg := readSeq_good fs e bs hc hsz sizes 0 (freshHandle e) (Or.inr ⟨rfl, rfl⟩)
      (by omega)
    rw [show (((0 : Nat) : Int)) = (0 : Int) from rfl] at hg
    rw [hg, hsum]
    simp
  exact ⟨h1, by rw [h1]; exact fullRead_ok fs e bs hc hsz⟩

/-- Witness for C8 at a concrete input: the six-byte file read as 2 + 3 + 1
bytes. -/
theorem sequential_reads_cover_witness :
    fsSix.content entrySix.id = .ok bsSix ∧ entrySix.size = (bsSix.length : Int) ∧
      ([2, 3, 1] : List Nat).sum = bsSix.length ∧
      ((readSeq fsSix (freshHandle entrySix) 0 [2, 3, 1]).1 = bsSix ∧
        (fileRead fsSix (freshHandle entrySix) 0 bsSix.length).res =
          .ok ((readSeq fsSix (freshHandle entrySix) 0 [2, 3, 1]).1)) :=
  ⟨rfl, by decide, by decide,
    sequential_reads_cover fsSix entrySix bsSix [2, 3, 1] rfl (by decide) (by decide)⟩

/-- C2: renaming "a" to "a" inside the same directory does NOT stay off the
network: the source's same-directory branch has no early return, so after the
no-op local rename it still issues a remote Move call (into the same parent).
Evaluated at a concrete store: the trace is [List 1, Move 1 2], not [List 1]. -/
theorem rename_same_name_issues_move :
    dirRename fsRenameFix dirOne dirOne "a" "a" = (.ok (), [.list 1, .move 1 2]) ∧
      Call.move 1 2 ∈ (dirRename fsRenameFix dirOne dirOne "a" "a").2 := by
  have heq : dirRename fsRenameFix dirOne dirOne "a" "a" = (.ok (), [.list 1, .move 1 2]) := rfl
  exact ⟨heq, by rw [heq]; simp⟩

/-- C3: after a seek (stream at position 4, request at offset 2), Read closes
the old stream and issues a download whose call records offset 2 — but the
bytes returned start at byte 0 of the file, not at byte 2, because the Range
header the source builds is never sent (`hc.Get(u)` is issued instead of the
prepared request). -/
theorem seek_read_returns_start_bytes :
    (fileRead fsSix handleSeek 2 2).res = .ok (bsSix.take 2) ∧
      bsSix.take 2 = [10, 11] ∧
      (bsSix.drop 2).take 2 = [12, 13] ∧
      ([10, 11] : List Byte) ≠ [12, 13] ∧
      (fileRead fsSix handleSeek 2 2).calls = [.download 5 2] :=
  ⟨rfl, rfl, rfl, by decide, rfl⟩

/-- Every byte count of 10^15 = 1000^5 or more drives humanizeBytes past the
end of its five-element suffix array: the computed exponent is at least 5. -/
theorem humanize_large (s : Nat) (hs : 10 ^ 15 ≤ s) : humanizeBytes s = none := by
  have hpow : (10 : Nat) ^ 15 = 1000000000000000 := by norm_num
  have h10 : ¬ s < 10 := by omega
  have hlog : 5 ≤ Nat.log 1000 s := by
    rw [← Nat.pow_le_iff_le_log (by norm_num) (by omega)]
    calc (1000 : Nat) ^ 5 = 10 ^ 15 := by norm_num
      _ ≤ s := hs
  have hnone : sizeSuffixes[Nat.log 1000 s]? = none := by
    apply List.getElem?_eq_none
    simpa [sizeSuffixes] using hlog
  simp [humanizeBytes, h10, hnone]

/-- A transfer still in progress whose size and downloaded count are 10^15. -/
def bigTransfer : Transfer :=
  ⟨"big.iso", "DOWNLOADING", 1000000000000000, 1000000000000000, 0, 0⟩

/-- C10: rendering the ".transfers" pseudo-file panics on a snapshot with a
non-completed transfer whose size is at least 10^15: humanizeBytes indexes its
five-element suffix array out of bounds for every input of 10^15 and above
(the Go `math.Floor(math.Log s / math.Log 1000)` is modelled exactly as
`Nat.log 1000 s`), so printTransfersChart propagates the panic (`none`). -/
theorem humanize_overflow_panics :
    (∀ s : Nat, 10 ^ 15 ≤ s → humanizeBytes s = none) ∧
      printTransfersChart [bigTransfer] = none := by
  refine ⟨fun s hs => humanize_large s hs, ?_⟩
  have hbig : humanizeBytes (uint64 bigTransfer.downloaded) = none := by
    have hu : uint64 bigTransfer.downloaded = 1000000000000000 := by decide
    rw [hu]
    exact humanize_large _ (by norm_num)
  have ht : transferRow bigTransfer = none := by
    unfold transferRow
    rw [if_neg (by decide), hbig]
    rfl
  have hmap : List.mapM transferRow [bigTransfer] = (none : Option (List String)) := by
    rw [List.mapM_cons, ht]
    rfl
  unfold printTransfersChart
  rw [if_neg (by decide), hmap]
  rfl

/-- Witness for C10 at a concrete input beyond the threshold. -/
theorem humanize_overflow_panics_witness :
    ((10 : Nat) ^ 15 ≤ 2 * 10 ^ 15) ∧ humanizeBytes (2 * 10 ^ 15) = none :=
  ⟨by norm_num, humanize_overflow_panics.1 (2 * 10 ^ 15) (by norm_num)⟩

end Putiofs
